import Mathlib

/-!
Verification of the research-loop orchestration engine and citation
subsystem of the `fullstack-langgraph-quickstart` backend
(`src/backend/src/agent/graph.py`, `web_search.py`, `configuration.py`),
as a shallow embedding in Lean.

External effects (LLM calls, HTTP fetches, the DuckDuckGo backend) are
passed in as explicit result values (`Except`), so that each Python
function becomes a total Lean function of its inputs and of the outcomes
of its external calls.

The file is organised as: all definitions first, then all theorems.
-/

namespace Agent

/-! # Definitions -/

/-! ## Research loop orchestration (graph.py)

`reflection` (graph.py:193) increments `research_loop_count` before its
LLM call; `evaluate_research` (graph.py:243) routes to `finalize_answer`
when `is_sufficient or research_loop_count >= max_research_loops`, and
otherwise dispatches a new web-research wave.  A run is modelled by the
trace of post-increment loop counts: the reflection outcomes are supplied
by `suff : ℕ → Bool` (the value of `is_sufficient` at the k-th
reflection, 0-indexed). -/

/-- graph.py:193 — `state["research_loop_count"] = state.get("research_loop_count", 0) + 1`. -/
def reflection_increment (research_loop_count : Option ℕ) : ℕ :=
  research_loop_count.getD 0 + 1

/-- graph.py:238-242 — `max_research_loops` comes from the state when present,
else from the configuration. -/
def effective_max_loops (state_mrl : Option ℕ) (config_mrl : ℕ) : ℕ :=
  state_mrl.getD config_mrl

/-- graph.py:243 — the terminal test of `evaluate_research`:
`state["is_sufficient"] or state["research_loop_count"] >= max_research_loops`.
Returns `true` when the run transitions to `finalize_answer`. -/
def evaluate_terminal (is_sufficient : Bool) (research_loop_count max_research_loops : ℕ) : Bool :=
  is_sufficient || decide (research_loop_count ≥ max_research_loops)

/-- The sequence of post-increment `research_loop_count` values produced by a
run that is at pre-reflection loop count `lc`.  Each element is the count set
by one execution of `reflection`; the graph edge `web_research → reflection`
pairs each research wave with exactly one reflection, so the length of this
trace is the number of research fan-out waves the run executes. -/
def reflectionTrace (budget : ℕ) (suff : ℕ → Bool) (lc : ℕ) : List ℕ :=
  let lc' := lc + 1
  if evaluate_terminal (suff lc) lc' budget then [lc']
  else lc' :: reflectionTrace budget suff lc'
termination_by budget - lc
decreasing_by
  simp only [evaluate_terminal, Bool.or_eq_true, decide_eq_true_eq, not_or, not_le] at *
  omega

/-! ## The reflection node (graph.py:177-218)

The node mutates the incoming state dict in place (graph.py:193) before
invoking the structured-output port (graph.py:210), so the caller's dict
holds the incremented count even when the port raises.  The node is
modelled as a function of the incoming count, the accumulated
`search_query` list, and the port outcome; it returns the mutated count
paired with the node's result (the raised exception propagates as
`.error`). -/

/-- The structured reflection schema (`tools_and_schemas.Reflection`, a module
not present under src/).  Modelled from the spec: the structured-output port's
reflection schema is a sufficiency boolean, a knowledge-gap description and a
list of follow-up queries. -/
structure Reflection where
  is_sufficient : Bool
  knowledge_gap : String
  follow_up_queries : List String

/-- The `ReflectionState` update returned by the node (graph.py:212-218). -/
structure ReflectionOutcome where
  is_sufficient : Bool
  knowledge_gap : String
  follow_up_queries : List String
  research_loop_count : ℕ
  number_of_ran_queries : ℕ

/-- graph.py:177-218 — the `reflection` node.  First component: the value of
`state["research_loop_count"]` after the in-place mutation at graph.py:193
(performed before the port call, hence present whatever the port outcome).
Second component: the node's returned state update, or the port's error. -/
def reflection (research_loop_count : Option ℕ) (search_query : List String)
    (port : Except String Reflection) : ℕ × Except String ReflectionOutcome :=
  let lc := reflection_increment research_loop_count
  (lc,
    match port with
    | .error e => .error e
    | .ok result =>
        .ok ⟨result.is_sufficient, result.knowledge_gap, result.follow_up_queries, lc,
          search_query.length⟩)

/-! ## Per-query task ids (graph.py:88-96, graph.py:246-255)

`continue_to_web_research` seeds the initial wave with ids `0..n-1`;
the loop-back branch of `evaluate_research` seeds a follow-up wave with
ids `number_of_ran_queries + idx`.  `number_of_ran_queries` is
`len(state["search_query"])` at reflection time (graph.py:217); the
`search_query` channel accumulates one entry per completed web-research
task (each task returns `"search_query": [query]`). -/

/-- A `Send("web_research", ...)` task descriptor. -/
structure SendTask where
  search_query : String
  id : ℕ

/-- graph.py:88-96 — `continue_to_web_research`: one task per generated
query, ids `0..n-1` from `enumerate`. -/
def continue_to_web_research (query_list : List String) : List SendTask :=
  query_list.enum.map fun p => ⟨p.2, p.1⟩

/-- graph.py:246-255 — the loop-back branch of `evaluate_research`: one task
per follow-up query, ids `number_of_ran_queries + idx`. -/
def evaluate_research_sends (number_of_ran_queries : ℕ)
    (follow_up_queries : List String) : List SendTask :=
  follow_up_queries.enum.map fun p => ⟨p.2, number_of_ran_queries + p.1⟩

/-- The follow-up waves of a run, given the running total of completed
queries.  Modelled from the spec for the accumulation of the
`search_query` channel (`state.py` is not under src/): each dispatched task
appends exactly one entry to `search_query`, so after a wave of `k` tasks the
total seen by the next reflection grows by `k`. -/
def followUpWaves : ℕ → List (List String) → List (List SendTask)
  | _, [] => []
  | total, f :: rest => evaluate_research_sends total f :: followUpWaves (total + f.length) rest

/-- All task waves of a run: the initial wave seeded by
`continue_to_web_research`, then one wave per loop-back, ids continuing from
the total count of queries run so far. -/
def runWaves (initial_queries : List String) (follow_up_lists : List (List String)) :
    List (List SendTask) :=
  continue_to_web_research initial_queries ::
    followUpWaves initial_queries.length follow_up_lists

/-! ## Character-list string primitives

Python string operations are embedded over `List Char` (Python `str`
operations are per-character, which matches `String.data`).  Core
`String` functions that iterate over byte positions do not reduce in the
kernel, so the needed ones are defined here structurally. -/

/-- Python `s.lower()` (per character; the repository only manipulates
ASCII-ish titles and markers). -/
def lowerL (l : List Char) : List Char := l.map Char.toLower

/-- Python `sub in s` (substring containment; `"" in s` is `True`). -/
def containsSub (sub : List Char) : List Char → Bool
  | [] => sub.isEmpty
  | c :: t => sub.isPrefixOf (c :: t) || containsSub sub t

/-- Python `s.split(sep)` for a one-character separator: `"".split(sep) = [""]`,
and every separator occurrence delimits a (possibly empty) chunk. -/
def pySplit (sep : Char) : List Char → List (List Char)
  | [] => [[]]
  | c :: t =>
    match pySplit sep t with
    | [] => [[]]
    | h :: r => if c = sep then [] :: h :: r else (c :: h) :: r

/-- Splitting at every character satisfying `p` (chunks may be empty; Python
`s.split()` is this split followed by dropping empty chunks). -/
def pySplitPred (p : Char → Bool) : List Char → List (List Char)
  | [] => [[]]
  | c :: t =>
    match pySplitPred p t with
    | [] => [[]]
    | h :: r => if p c then [] :: h :: r else (c :: h) :: r

/-- Python `sep.join(chunks)` for a one-character separator. -/
def pyJoin (sep : Char) : List (List Char) → List Char
  | [] => []
  | [x] => x
  | x :: y :: rest => x ++ sep :: pyJoin sep (y :: rest)

/-- Replace every (leftmost, non-overlapping) occurrence of `pat` by `rep`,
with explicit fuel; each step consumes at least one character of the text
when `pat` is non-empty, so fuel `s.length` suffices. -/
def replaceFuel (pat rep : List Char) : ℕ → List Char → List Char
  | _, [] => []
  | 0, s => s
  | fuel + 1, c :: t =>
    if pat.isPrefixOf (c :: t) then rep ++ replaceFuel pat rep fuel ((c :: t).drop pat.length)
    else c :: replaceFuel pat rep fuel t

/-- Python `s.replace(pat, rep)` for a non-empty pattern (the only patterns the
code replaces are short-url tokens of the form `[domain]`, never empty; the
empty pattern is mapped to the identity). -/
def pyReplace (s pat rep : String) : String :=
  if pat.data.isEmpty then s
  else ⟨replaceFuel pat.data rep.data s.data.length s.data⟩

/-- Python `text[:n]` (character prefix). -/
def pyTake (s : String) (n : ℕ) : String := ⟨s.data.take n⟩

/-- The suffix of `l` following the first occurrence of `pat`, when any. -/
def afterSub (pat : List Char) : List Char → Option (List Char)
  | [] => if pat.isEmpty then some [] else none
  | c :: t => if pat.isPrefixOf (c :: t) then some ((c :: t).drop pat.length) else afterSub pat t

/-! ## Generic web search (web_search.py) -/

/-- Models `urlparse(url).netloc` for the `scheme://host/path` shapes produced
by search backends; inputs without `://` get an empty netloc.  No theorem in
this file depends on the exact netloc value. -/
def netloc (url : String) : String :=
  match afterSub "://".data url.data with
  | some rest => ⟨rest.takeWhile (· ≠ '/')⟩
  | none => ""

/-- web_search.py:24-27 — `WebSearchResult._create_short_url`. -/
def create_short_url (url : String) : String := "[" ++ netloc url ++ "]"

/-- web_search.py:14-27 — a search result record; `short_url` is computed from
the url at construction. -/
structure WebSearchResult where
  title : String
  url : String
  snippet : String
  content : String
  short_url : String
deriving DecidableEq

/-- web_search.py:17-22 — the `WebSearchResult` constructor. -/
def WebSearchResult.make (title url snippet content : String) : WebSearchResult :=
  ⟨title, url, snippet, content, create_short_url url⟩

/-- A raw DuckDuckGo hit (`result.get` of `title` / `href` / `body`). -/
structure RawSearchHit where
  title : String
  href : String
  body : String
deriving DecidableEq

/-- web_search.py:78-119 — `GenericWebSearcher._extract_content_async`: the
whole fetch-and-extract `try` block is summarised by `fetched` (the cleaned
readable text, or the raised exception); the code then truncates over-long
text to `max_content_length` characters plus an ellipsis marker, and maps any
failure to an empty-content record that keeps title, url and snippet. -/
def GenericWebSearcher.extract_content (url title snippet : String)
    (max_content_length : ℕ) (fetched : Except String String) : WebSearchResult :=
  match fetched with
  | .ok text =>
    let text :=
      if text.length > max_content_length then pyTake text max_content_length ++ "..." else text
    WebSearchResult.make title url snippet text
  | .error _ => WebSearchResult.make title url snippet ""

/-- web_search.py:39-76 — `GenericWebSearcher.search`: the DuckDuckGo call
outcome is `ddgs` (the backend itself enforces `max_results`), and `fetch i`
is the fetch outcome for the i-th hit.  A failing backend call is caught and
yields `[]`; each hit is extracted independently (`_extract_content_async`
never raises, so the `isinstance` filter keeps every result). -/
def GenericWebSearcher.search (max_content_length : ℕ)
    (ddgs : Except String (List RawSearchHit)) (fetch : ℕ → Except String String) :
    List WebSearchResult :=
  match ddgs with
  | .error _ => []
  | .ok hits =>
    hits.enum.map fun p =>
      GenericWebSearcher.extract_content p.2.href p.2.title p.2.body max_content_length (fetch p.1)

/-- The custom-format source dict `{"title", "url", "short_url", "snippet"}`
built at web_search.py:156-161. -/
structure SourceDict where
  title : String
  url : String
  short_url : String
  snippet : String
deriving DecidableEq

/-- web_search.py:219 — the citation marker appended for a source. -/
def citationText (source : SourceDict) : List Char :=
  (" [" ++ source.short_url ++ "](" ++ source.url ++ ")").data

/-- web_search.py:222 — `source['title'].lower().split()[:3]` (whitespace
split dropping empty chunks, first three words). -/
def titleWords (title : String) : List (List Char) :=
  ((pySplitPred Char.isWhitespace (lowerL title.data)).filter fun w => !w.isEmpty).take 3

/-- web_search.py:218-235 — the body of `_insert_simple_citations` for one
source: the first title word that is longer than 3 characters and occurs in
the lowered content selects the first sentence that contains it and does not
already contain this source's citation marker; the marker is appended to that
sentence.  (The `domain` local of the Python code is computed but never
used.) -/
def insertForSource (content : List Char) (source : SourceDict) : List Char :=
  let citation := citationText source
  match (titleWords source.title).find?
      (fun w => decide (3 < w.length) && containsSub w (lowerL content)) with
  | none => content
  | some w =>
    let sentences := pySplit '.' content
    let sentences' :=
      match sentences.findIdx? (fun s => containsSub w (lowerL s) && !containsSub citation s) with
      | none => sentences
      | some j => sentences.set j (sentences.getD j [] ++ citation)
    pyJoin '.' sentences'

/-- web_search.py:206-237 — `_insert_simple_citations`. -/
def insertSimpleCitations (content : String) (sources : List SourceDict) : String :=
  ⟨sources.foldl insertForSource content.data⟩

/-- web_search.py:239-253 — `_create_basic_summary`. -/
def createBasicSummary (search_results : List WebSearchResult) : String :=
  "Search Results Summary:\n\n" ++
    String.intercalate "\n" (search_results.enum.map fun p =>
      toString (p.1 + 1) ++ ". " ++ p.2.title ++ "\n" ++ p.2.snippet ++ "\nSource: " ++
        p.2.url ++ "\n")

/-- The dictionary returned by `perform_web_search_with_llm`. -/
structure SearchOutput where
  web_research_result : String
  sources_gathered : List SourceDict
  search_query : String
deriving DecidableEq

/-- web_search.py:121-204 — the body of the `async def`
`perform_web_search_with_llm`, i.e. what an awaited call computes: search,
build one source dict per result, then either the LLM synthesis with
heuristic citations, or (when the LLM call raises) the basic summary.
(graph.py never awaits it — see `web_research_fallback`.) -/
def perform_web_search_with_llm (search_query : String) (llm : Except String String)
    (max_content_length : ℕ) (ddgs : Except String (List RawSearchHit))
    (fetch : ℕ → Except String String) : SearchOutput :=
  let search_results := GenericWebSearcher.search max_content_length ddgs fetch
  if search_results.isEmpty then
    { web_research_result := "No search results found.", sources_gathered := [],
      search_query := search_query }
  else
    let sources_gathered := search_results.map fun r =>
      ({ title := r.title, url := r.url, short_url := r.short_url,
         snippet := r.snippet } : SourceDict)
    match llm with
    | .ok response =>
      { web_research_result := insertSimpleCitations response sources_gathered,
        sources_gathered := sources_gathered, search_query := search_query }
    | .error _ =>
      { web_research_result := createBasicSummary search_results,
        sources_gathered := sources_gathered, search_query := search_query }

/-! ## The web_research node and finalize_answer (graph.py)

`sources_gathered` carries two dict shapes (graph.py:296-314): the custom
format `{"title", "url", "short_url", "snippet"}` from the DuckDuckGo
fallback, and the Google grounding format `{"label", "short_url",
"value"}`.  They are embedded as a tagged union. -/

/-- A source record accumulated in `sources_gathered`. -/
inductive Source
  | custom (title url short_url snippet : String)
  | grounded (label short_url value : String)
deriving DecidableEq

/-- The URL under which `finalize_answer` deduplicates a record:
`source["url"]` for the custom shape, `source["value"]` for the grounding
shape (graph.py:299-306). -/
def Source.urlOf : Source → String
  | .custom _ u _ _ => u
  | .grounded _ _ v => v

/-- The custom source dict as a `Source` (the Python code passes the dicts
through unchanged; only the tag differs here). -/
def SourceDict.toSource (s : SourceDict) : Source :=
  .custom s.title s.url s.short_url s.snippet

/-- The already-processed outcome of the Google native-search branch
(graph.py:124-139).  Modelled from the spec: the processing uses
`resolve_urls` / `get_citations` / `insert_citation_markers` from
`agent.utils`, a module not under src/, so the grounded branch's product
(marked text plus grounding source records) is taken as the port outcome. -/
structure GroundedProcessed where
  sources_gathered : List Source
  modified_text : String
deriving DecidableEq

/-- The `OverallState` update returned by `web_research`. -/
structure WebResearchOutput where
  sources_gathered : List Source
  search_query : List String
  web_research_result : List String
deriving DecidableEq

/-- graph.py:151-174 — the DuckDuckGo fallback tail of `web_research`.  The
node `web_research` is a synchronous `def` (graph.py:99) while
`perform_web_search_with_llm` is `async def` (web_search.py:121): the call at
graph.py:163 is not awaited, so `search_results` is a coroutine object whose
body never runs (no search, no LLM call is made), and the subscript
`search_results["sources_gathered"]` at graph.py:171 raises TypeError.  The
fallback path therefore fails identically for every query and every would-be
search/synthesis outcome; the parameters are carried only to show the failure
is independent of them. -/
def web_research_fallback (_search_query : String) (_llm : Except String String)
    (_max_content_length : ℕ) (_ddgs : Except String (List RawSearchHit))
    (_fetch : ℕ → Except String String) : Except String WebResearchOutput :=
  .error "TypeError: coroutine object is not subscriptable"

/-- graph.py:99-174 — the `web_research` node: when a genai client exists the
grounded strategy is tried first and its processed result returned; any
exception from it (graph.py:147) falls through to the DuckDuckGo fallback,
and without a genai client the fallback runs directly — but the fallback path
raises TypeError on the un-awaited coroutine (see `web_research_fallback`),
so the node errors instead of contributing results. -/
def web_research (genai_available : Bool) (grounded : Except String GroundedProcessed)
    (search_query : String) (llm : Except String String) (max_content_length : ℕ)
    (ddgs : Except String (List RawSearchHit)) (fetch : ℕ → Except String String) :
    Except String WebResearchOutput :=
  if genai_available then
    match grounded with
    | .ok g =>
      .ok { sources_gathered := g.sources_gathered, search_query := [search_query],
            web_research_result := [g.modified_text] }
    | .error _ => web_research_fallback search_query llm max_content_length ddgs fetch
  else web_research_fallback search_query llm max_content_length ddgs fetch

/-- The loop state of `finalize_answer`'s deduplication (graph.py:291-314):
`unique_sources`, the `seen_urls` set (membership-only, embedded as a list),
and `result.content` which grounding records may rewrite in place. -/
structure FinState where
  unique_sources : List Source
  seen_urls : List String
  content : String
deriving DecidableEq

/-- graph.py:309-313 — the content rewrite a first-seen record performs: only
the grounding shape replaces its `short_url` token by the full URL (the
custom shape leaves the text untouched). -/
def rewriteContent (source : Source) (content : String) : String :=
  match source with
  | .custom _ _ _ _ => content
  | .grounded _ short_url value =>
    if containsSub short_url.data content.data then pyReplace content short_url value
    else content

/-- graph.py:295-314 — one iteration of the deduplication loop: a record whose
URL was already seen is skipped entirely (no append, no rewrite); a first-seen
record is appended, its URL marked seen, and (grounding shape only) its token
rewritten in the content. -/
def finalizeStep (st : FinState) (source : Source) : FinState :=
  if source.urlOf ∈ st.seen_urls then st
  else
    { unique_sources := st.unique_sources ++ [source],
      seen_urls := source.urlOf :: st.seen_urls,
      content := rewriteContent source st.content }

/-- graph.py:291-319 — the source-processing loop of `finalize_answer`, over
the accumulated `sources_gathered` and the generated answer text. -/
def finalize_sources (sources : List Source) (content : String) : FinState :=
  sources.foldl finalizeStep { unique_sources := [], seen_urls := [], content := content }

/-- Modelled from the spec (refinement reference): "merge by canonical URL;
when two records share a canonical URL, keep the first-seen title/snippet" —
keep exactly the first-seen record per URL, given the URLs already seen. -/
def dedupFirstAux (seen : List String) : List Source → List Source
  | [] => []
  | s :: rest =>
    if s.urlOf ∈ seen then dedupFirstAux seen rest
    else s :: dedupFirstAux (s.urlOf :: seen) rest

/-- Modelled from the spec (refinement reference): first-seen-per-URL
deduplication of the full accumulated source list. -/
def dedupFirst (sources : List Source) : List Source := dedupFirstAux [] sources

/-! ## Configuration (configuration.py) -/

/-- A raw value as it can appear in the `configurable` mapping of a
`RunnableConfig` (string or int; environment values are always strings). -/
inductive PyValue
  | str (s : String)
  | int (n : ℕ)
deriving DecidableEq

/-- Python `name.upper()` (per character). -/
def pyUpper (s : String) : String := ⟨s.data.map Char.toUpper⟩

/-- Decimal parsing of a non-empty digit string (pydantic's str→int
coercion for int fields; any non-digit makes validation fail). -/
def digitsToNat? (l : List Char) : Option ℕ :=
  if l.isEmpty then none
  else
    l.foldl
      (fun acc c =>
        match acc with
        | none => none
        | some n => if c.isDigit then some (n * 10 + (c.toNat - 48)) else none)
      (some 0)

/-- Pydantic validation of a raw value against an int field. -/
def coerceNat : PyValue → Option ℕ
  | .int n => some n
  | .str s => digitsToNat? s.data

/-- Pydantic validation of a raw value against a str field. -/
def coerceStr : PyValue → Option String
  | .str s => some s
  | .int _ => none

/-- configuration.py:8-33 — the agent configuration and its declared
defaults. -/
structure Configuration where
  provider : String
  reasoning_model : String
  number_of_initial_queries : ℕ
  max_research_loops : ℕ
deriving DecidableEq

/-- configuration.py:45-48 — `os.environ.get(name.upper(), configurable.get(name))`:
the environment variable named by the uppercased field name wins; otherwise
the configurable mapping's value; otherwise nothing. -/
def resolveRaw (env : String → Option String) (configurable : String → Option PyValue)
    (name : String) : Option PyValue :=
  match env (pyUpper name) with
  | some v => some (.str v)
  | none => configurable name

/-- One int field of `cls(**values)`: a resolved raw value is validated,
an absent one falls back to the field's declared default. -/
def resolveNatField (env : String → Option String) (configurable : String → Option PyValue)
    (name : String) (dflt : ℕ) : Option ℕ :=
  match resolveRaw env configurable name with
  | some v => coerceNat v
  | none => some dflt

/-- One str field of `cls(**values)`. -/
def resolveStrField (env : String → Option String) (configurable : String → Option PyValue)
    (name : String) (dflt : String) : Option String :=
  match resolveRaw env configurable name with
  | some v => coerceStr v
  | none => some dflt

/-- configuration.py:40-42 — the `configurable` mapping is taken from the
config when present, else empty. -/
def configurableOf (config : Option (String → Option PyValue)) : String → Option PyValue :=
  config.getD fun _ => none

/-- configuration.py:35-53 — `Configuration.from_runnable_config`: raw values
are resolved with environment precedence, `None`s are filtered out so the
declared defaults apply, and pydantic validation of any present value may
fail (`none`). -/
def Configuration.from_runnable_config (env : String → Option String)
    (config : Option (String → Option PyValue)) : Option Configuration :=
  match resolveStrField env (configurableOf config) "provider" "gemini",
      resolveStrField env (configurableOf config) "reasoning_model"
        "gemini-2.5-flash-preview-04-17",
      resolveNatField env (configurableOf config) "number_of_initial_queries" 3,
      resolveNatField env (configurableOf config) "max_research_loops" 2 with
  | some p, some rm, some niq, some mrl => some ⟨p, rm, niq, mrl⟩
  | _, _, _, _ => none

/-! # Theorems -/

theorem reflection_increment_some (lc : ℕ) : reflection_increment (some lc) = lc + 1 := rfl

theorem reflectionTrace_length_le (budget : ℕ) (suff : ℕ → Bool) (lc : ℕ) :
    (reflectionTrace budget suff lc).length ≤ budget - lc + 1 := by
  rw [reflectionTrace]
  -- unfold the post-increment count
  cases h : evaluate_terminal (suff lc) (lc + 1) budget with
  | true => simp
  | false =>
    simp only [Bool.false_eq_true, if_false, List.length_cons]
    have hlt : lc + 1 < budget := by
      simp only [evaluate_terminal, Bool.or_eq_false_iff, decide_eq_false_iff_not, not_le] at h
      omega
    have := reflectionTrace_length_le budget suff (lc + 1)
    omega
termination_by budget - lc
decreasing_by omega

theorem reflectionTrace_mem_le (budget : ℕ) (suff : ℕ → Bool) (lc : ℕ)
    (hlc : lc < budget) : ∀ x ∈ reflectionTrace budget suff lc, x ≤ budget := by
  intro x hx
  rw [reflectionTrace] at hx
  -- unfold the post-increment count
  cases h : evaluate_terminal (suff lc) (lc + 1) budget with
  | true =>
    rw [h] at hx
    simp only [if_true, List.mem_singleton] at hx
    omega
  | false =>
    rw [h] at hx
    simp only [Bool.false_eq_true, if_false, List.mem_cons] at hx
    rcases hx with hx | hx
    · omega
    · have hlt : lc + 1 < budget := by
        simp only [evaluate_terminal, Bool.or_eq_false_iff, decide_eq_false_iff_not, not_le] at h
        omega
      exact reflectionTrace_mem_le budget suff (lc + 1) hlt x hx
termination_by budget - lc
decreasing_by omega

/-- C1: For every `loop_budget ≥ 0` and every sequence of reflection outcomes,
a run executes at most `loop_budget + 1` research fan-out waves before
reaching `finalize_answer`: the routing step after reflection dispatches a new
wave only while `evaluate_terminal` is false, and reflection increments the
loop count once before each routing decision, so the trace of reflections
(one per wave) has length at most `loop_budget + 1`. -/
theorem waves_le_budget_succ (loop_budget : ℕ) (suff : ℕ → Bool) :
    (reflectionTrace loop_budget suff 0).length ≤ loop_budget + 1 := by
  have := reflectionTrace_length_le loop_budget suff 0
  omega

/-- C3 (counterexample): with `loop_budget = 0` the single mandatory
reflection after the first wave sets `research_loop_count` to `1`, which
exceeds the budget `0`: the claimed invariant fails for `loop_budget = 0`. -/
theorem loop_count_can_exceed_zero_budget :
    1 ∈ reflectionTrace 0 (fun _ => false) 0 ∧ ¬(1 ≤ 0) := by
  constructor
  · rw [reflectionTrace]
    simp [evaluate_terminal, reflection_increment]
  · omega

/-- C3 (amended): for every `loop_budget ≥ 1`, at every reachable state of a
run, every post-increment value of `research_loop_count` is at most
`loop_budget` (for `loop_budget = 0` the single mandatory reflection yields
count `1`). -/
theorem loop_count_le_budget (loop_budget : ℕ) (suff : ℕ → Bool)
    (h : 1 ≤ loop_budget) :
    ∀ x ∈ reflectionTrace loop_budget suff 0, x ≤ loop_budget :=
  reflectionTrace_mem_le loop_budget suff 0 (by omega)

/-- Witness for `loop_count_le_budget` at `loop_budget = 1`. -/
theorem loop_count_le_budget_witness : (1 : ℕ) ≤ 1 := by
  refine loop_count_le_budget 1 (fun _ => false) (by omega) 1 ?_
  rw [reflectionTrace]
  simp [evaluate_terminal, reflection_increment]

/-- C6: network-layer failures are contained: a failing document fetch yields
a record with empty content and title, url and snippet preserved (never an
error), and a failing search backend call yields the empty result list
(never an error). -/
theorem network_failures_contained (url title snippet : String) (m : ℕ) (e e' : String)
    (fetch : ℕ → Except String String) :
    (GenericWebSearcher.extract_content url title snippet m (.error e)).title = title ∧
    (GenericWebSearcher.extract_content url title snippet m (.error e)).url = url ∧
    (GenericWebSearcher.extract_content url title snippet m (.error e)).snippet = snippet ∧
    (GenericWebSearcher.extract_content url title snippet m (.error e)).content = "" ∧
    GenericWebSearcher.search m (.error e') fetch = [] :=
  ⟨rfl, rfl, rfl, rfl, rfl⟩

/-- C9 (counterexample): with `max_content_length = 1` and fetched text
`"abc"`, the stored content is `"a..."` — 4 characters, which exceeds the
configured maximum of 1: truncation appends a 3-character ellipsis marker on
top of the limit, so the claim "never exceeds max_content_length characters"
is false. -/
theorem extract_content_exceeds_max :
    (GenericWebSearcher.extract_content "u" "t" "s" 1 (.ok "abc")).content = "a..." ∧
    ¬((GenericWebSearcher.extract_content "u" "t" "s" 1 (.ok "abc")).content.length ≤ 1) := by
  decide

/-- C9 (amended): the readable text stored in a fetched document's content
field never exceeds `max_content_length + 3` characters (the configured
maximum plus the 3-character `...` marker appended on truncation), and text
already within the maximum is stored unchanged. -/
theorem extract_content_length_bounded (url title snippet : String) (m : ℕ)
    (fetched : Except String String) :
    (GenericWebSearcher.extract_content url title snippet m fetched).content.length ≤ m + 3 ∧
    (∀ text, fetched = .ok text → text.length ≤ m →
      (GenericWebSearcher.extract_content url title snippet m fetched).content = text) := by
  constructor
  · cases fetched with
    | error e => simp [GenericWebSearcher.extract_content, WebSearchResult.make]
    | ok text =>
      simp only [GenericWebSearcher.extract_content, WebSearchResult.make]
      by_cases h : text.length > m
      · simp only [h, if_true]
        have h1 : (pyTake text m ++ "...").length = (text.data.take m ++ "...".data).length := rfl
        have h2 : text.length = text.data.length := rfl
        rw [h1, List.length_append, List.length_take]
        have h3 : "...".data.length = 3 := rfl
        omega
      · simp only [h, if_false]
        omega
  · rintro text rfl htl
    simp only [GenericWebSearcher.extract_content, WebSearchResult.make]
    rw [if_neg (by omega)]

/-- Witness for `extract_content_length_bounded`: text within the maximum is
stored unchanged. -/
theorem extract_content_length_bounded_witness :
    (GenericWebSearcher.extract_content "u" "t" "s" 5 (.ok "ab")).content = "ab" :=
  (extract_content_length_bounded "u" "t" "s" 5 (.ok "ab")).2 "ab" rfl (by decide)

/-- C4: the reflection step increments `research_loop_count` by exactly 1 as
its first effect: the mutated count equals the incoming count (defaulting to
0) plus 1, it is the same whatever the port outcome (in particular it is in
place before the port is invoked and survives a port failure), and on port
success the returned state update reports exactly that incremented count. -/
theorem reflection_increments_first (lc0 : Option ℕ) (sq : List String)
    (e : String) (r : Reflection) (p₁ p₂ : Except String Reflection) :
    (reflection lc0 sq (.error e)).1 = lc0.getD 0 + 1 ∧
    (reflection lc0 sq (.ok r)).1 = lc0.getD 0 + 1 ∧
    (reflection lc0 sq p₁).1 = (reflection lc0 sq p₂).1 ∧
    (reflection lc0 sq (.error e)).2 = .error e ∧
    (reflection lc0 sq (.ok r)).2 =
      .ok ⟨r.is_sufficient, r.knowledge_gap, r.follow_up_queries, lc0.getD 0 + 1,
        sq.length⟩ :=
  ⟨rfl, rfl, rfl, rfl, rfl⟩

theorem continue_to_web_research_ids (query_list : List String) :
    (continue_to_web_research query_list).map SendTask.id = List.range query_list.length := by
  simp only [continue_to_web_research, List.map_map]
  exact List.enum_map_fst query_list

theorem evaluate_research_sends_ids (total : ℕ) (fqs : List String) :
    (evaluate_research_sends total fqs).map SendTask.id = List.range' total fqs.length := by
  simp only [evaluate_research_sends, List.map_map]
  have h1 : (SendTask.id ∘ fun p : ℕ × String => (⟨p.2, total + p.1⟩ : SendTask)) =
      (fun i => total + i) ∘ Prod.fst := rfl
  rw [h1, ← List.map_map, List.enum_map_fst, List.range'_eq_map_range]

theorem followUpWaves_join_ids (fols : List (List String)) (total : ℕ) :
    ((followUpWaves total fols).flatten).map SendTask.id =
      List.range' total (fols.map List.length).sum := by
  induction fols generalizing total with
  | nil => simp [followUpWaves]
  | cons f rest ih =>
    simp only [followUpWaves, List.flatten_cons, List.map_append, List.map_cons, List.sum_cons,
      evaluate_research_sends_ids, ih]
    rw [List.range'_append_1, Nat.add_comm]

/-- C5: per-query task ids are globally unique within a run: the initial wave
is seeded with ids `0..n-1` and each follow-up wave continues from the total
count of queries run so far, so the ids of all tasks dispatched during one
run are pairwise distinct. -/
theorem run_task_ids_nodup (initial_queries : List String)
    (follow_up_lists : List (List String)) :
    (((runWaves initial_queries follow_up_lists).flatten).map SendTask.id).Nodup := by
  simp only [runWaves, List.flatten_cons, List.map_append, continue_to_web_research_ids,
    followUpWaves_join_ids]
  rw [List.range_eq_range']
  have h := List.range'_append_1 0 initial_queries.length
    (List.map List.length follow_up_lists).sum
  rw [Nat.zero_add] at h
  rw [h]
  exact List.nodup_range' _ _

theorem pySplit_ne_nil (sep : Char) (l : List Char) : pySplit sep l ≠ [] := by
  cases l with
  | nil => simp [pySplit]
  | cons c t =>
    simp only [pySplit]
    cases hsp : pySplit sep t with
    | nil => simp
    | cons h r => by_cases hc : c = sep <;> simp [hc]

theorem pyJoin_cons_of_ne_nil (sep : Char) (x : List Char) (L : List (List Char))
    (h : L ≠ []) : pyJoin sep (x :: L) = x ++ sep :: pyJoin sep L := by
  cases L with
  | nil => exact absurd rfl h
  | cons y r => rfl

theorem pyJoin_pySplit (sep : Char) (l : List Char) : pyJoin sep (pySplit sep l) = l := by
  induction l with
  | nil => rfl
  | cons c t ih =>
    simp only [pySplit]
    cases hsp : pySplit sep t with
    | nil => exact absurd hsp (pySplit_ne_nil sep t)
    | cons h r =>
      rw [hsp] at ih
      show pyJoin sep (if c = sep then [] :: h :: r else (c :: h) :: r) = c :: t
      by_cases hc : c = sep
      · subst hc
        rw [if_pos rfl, pyJoin_cons_of_ne_nil c [] (h :: r) (List.cons_ne_nil h r)]
        simpa using ih
      · rw [if_neg hc]
        cases r with
        | nil =>
          simp only [pyJoin] at ih ⊢
          rw [ih]
        | cons h2 r2 =>
          rw [pyJoin_cons_of_ne_nil sep (c :: h) (h2 :: r2) (List.cons_ne_nil h2 r2)]
          rw [pyJoin_cons_of_ne_nil sep h (h2 :: r2) (List.cons_ne_nil h2 r2)] at ih
          rw [List.cons_append, ih]

theorem pyJoin_set_length (sep : Char) (sentences : List (List Char)) (j : ℕ)
    (extra : List Char) (h : j < sentences.length) :
    (pyJoin sep (sentences.set j (sentences.getD j [] ++ extra))).length =
      (pyJoin sep sentences).length + extra.length := by
  induction sentences generalizing j with
  | nil => simp at h
  | cons x rest ih =>
    cases j with
    | zero =>
      cases rest with
      | nil => simp [pyJoin]
      | cons y r =>
        simp only [List.set_cons_zero, List.getD_cons_zero]
        rw [pyJoin_cons_of_ne_nil sep (x ++ extra) (y :: r) (List.cons_ne_nil y r),
          pyJoin_cons_of_ne_nil sep x (y :: r) (List.cons_ne_nil y r)]
        simp only [List.length_append, List.length_cons]
        omega
    | succ j' =>
      cases rest with
      | nil => simp at h
      | cons y r =>
        have h' : j' < (y :: r).length := by simpa using Nat.lt_of_succ_lt_succ h
        have hset : (y :: r).set j' ((y :: r).getD j' [] ++ extra) ≠ [] := by
          intro hc
          have := congrArg List.length hc
          simp at this
        simp only [List.set_cons_succ, List.getD_cons_succ]
        rw [pyJoin_cons_of_ne_nil sep x _ hset,
          pyJoin_cons_of_ne_nil sep x (y :: r) (List.cons_ne_nil y r)]
        simp only [List.length_append, List.length_cons, ih j' h']
        omega

theorem insertForSource_cases (content : List Char) (source : SourceDict) :
    insertForSource content source = content ∨
    ∃ j, j < (pySplit '.' content).length ∧
      insertForSource content source =
        pyJoin '.' ((pySplit '.' content).set j
          ((pySplit '.' content).getD j [] ++ citationText source)) := by
  rcases hfw : (titleWords source.title).find?
      (fun w => decide (3 < w.length) && containsSub w (lowerL content)) with _ | w
  · left
    simp [insertForSource, hfw]
  · rcases hj : (pySplit '.' content).findIdx?
        (fun s => containsSub w (lowerL s) && !containsSub (citationText source) s) with _ | j
    · left
      simp [insertForSource, hfw, hj, pyJoin_pySplit]
    · right
      refine ⟨j, ?_, ?_⟩
      · exact (List.findIdx?_eq_some_iff_findIdx_eq.mp hj).1
      · simp [insertForSource, hfw, hj]

theorem insertForSource_length (content : List Char) (source : SourceDict) :
    content.length ≤ (insertForSource content source).length ∧
    (insertForSource content source).length ≤ content.length + (citationText source).length := by
  rcases insertForSource_cases content source with h | ⟨j, hj, h⟩
  · simp [h]
  · rw [h, pyJoin_set_length '.' _ j _ hj]
    have hln := congrArg List.length (pyJoin_pySplit '.' content)
    omega

theorem foldl_insertForSource_length (sources : List SourceDict) :
    ∀ l : List Char,
      l.length ≤ (sources.foldl insertForSource l).length ∧
      (sources.foldl insertForSource l).length ≤
        l.length + (sources.map fun s => (citationText s).length).sum := by
  induction sources with
  | nil => intro l; simp
  | cons s rest ih =>
    intro l
    obtain ⟨h1, h2⟩ := insertForSource_length l s
    obtain ⟨h3, h4⟩ := ih (insertForSource l s)
    simp only [List.foldl_cons, List.map_cons, List.sum_cons]
    omega

theorem insertSimpleCitations_length (content : String) (sources : List SourceDict) :
    content.length ≤ (insertSimpleCitations content sources).length ∧
    (insertSimpleCitations content sources).length ≤
      content.length + (sources.map fun s => (citationText s).length).sum := by
  have h := foldl_insertForSource_length sources content.data
  exact h

/-- C8 (counterexample): with the same source listed twice, the second pass
finds its citation already present in the first sentence containing the
matched title word (`alpha`), so the marker is appended to the *second* such
sentence, not the first — contradicting "appended to the first sentence
containing the first matched title word". -/
theorem insert_citations_not_always_first_sentence :
    insertSimpleCitations "alpha.alpha x"
        [⟨"alpha beta", "u", "s", "sn"⟩, ⟨"alpha beta", "u", "s", "sn"⟩] =
      "alpha [s](u).alpha x [s](u)" ∧
    insertSimpleCitations "alpha.alpha x"
        [⟨"alpha beta", "u", "s", "sn"⟩, ⟨"alpha beta", "u", "s", "sn"⟩] ≠
      "alpha [s](u) [s](u).alpha x" := by
  decide

/-- C8 (amended): the fallback heuristic inserts at most one citation marker
per source — the whole pass grows the text by at most the sum of the citation
markers' lengths, and each per-source step either leaves the text unchanged or
appends the source's marker to exactly one sentence (the first sentence that
contains the first matched title word and does not already hold this source's
marker); a source none of whose early title words (longer than 3 characters)
occurs in the text contributes no insertion and causes no failure. -/
theorem insert_citations_at_most_one_per_source (content : String)
    (sources : List SourceDict) (c : List Char) (src : SourceDict) :
    ((insertSimpleCitations content sources).length ≤
      content.length + (sources.map fun s => (citationText s).length).sum) ∧
    (insertForSource c src = c ∨
      ∃ j, j < (pySplit '.' c).length ∧
        insertForSource c src =
          pyJoin '.' ((pySplit '.' c).set j
            ((pySplit '.' c).getD j [] ++ citationText src))) ∧
    ((∀ w ∈ titleWords src.title, ¬(3 < w.length ∧ containsSub w (lowerL c) = true)) →
      insertForSource c src = c) := by
  refine ⟨(insertSimpleCitations_length content sources).2, insertForSource_cases c src, ?_⟩
  intro hno
  have hfind : (titleWords src.title).find?
      (fun w => decide (3 < w.length) && containsSub w (lowerL c)) = none := by
    rw [List.find?_eq_none]
    intro w hw hcon
    simp only [Bool.and_eq_true, decide_eq_true_eq] at hcon
    exact hno w hw hcon
  simp [insertForSource, hfind]

/-- Witness for `insert_citations_at_most_one_per_source`: a source whose
title words are all short leaves the text unchanged. -/
theorem insert_citations_at_most_one_per_source_witness :
    insertForSource "xy".data ⟨"tt", "u", "s", "sn"⟩ = "xy".data :=
  (insert_citations_at_most_one_per_source "a" [] "xy".data ⟨"tt", "u", "s", "sn"⟩).2.2
    (by decide)

theorem createBasicSummary_ne_empty (l : List WebSearchResult) :
    createBasicSummary l ≠ "" := by
  intro hc
  have hlen := congrArg String.length hc
  rw [createBasicSummary, String.length_append] at hlen
  have h1 : ("Search Results Summary:\n\n").length = 25 := rfl
  have h2 : ("" : String).length = 0 := rfl
  omega

theorem string_length_pos_of_ne_empty {s : String} (h : s ≠ "") : 0 < s.length := by
  cases s with
  | mk d =>
    cases d with
    | nil => exact absurd rfl h
    | cons c t => simp [String.length]

/-- C7: the claimed fallback is the spec's intent, but the code's fallback
path cannot run: `perform_web_search_with_llm` is `async def`
(web_search.py:121) and the synchronous `web_research` node calls it without
await (graph.py:163), so graph.py:171 subscripts a coroutine object and the
task raises TypeError instead of falling back — for every grounded failure
and every would-be search/synthesis outcome (and likewise when no genai
client exists).  At the failing input, the body the call was meant to await
(plain search returning one result) would have contributed a non-empty source
list. -/
theorem web_research_fallback_crashes (e q : String) (llm : Except String String)
    (mcl : ℕ) (ddgs : Except String (List RawSearchHit))
    (fetch : ℕ → Except String String) (g : Except String GroundedProcessed) :
    web_research true (.error e) q llm mcl ddgs fetch =
      .error "TypeError: coroutine object is not subscriptable" ∧
    web_research false g q llm mcl ddgs fetch =
      .error "TypeError: coroutine object is not subscriptable" ∧
    (perform_web_search_with_llm "q" (.ok "text") 2000 (.ok [⟨"tt", "u", "s"⟩])
        (fun _ => .error "netfail")).sources_gathered ≠ [] :=
  ⟨rfl, rfl, by decide⟩

theorem resolveStrField_spec (env : String → Option String) (conf : String → Option PyValue)
    (name dflt up : String) (hup : pyUpper name = up) (r : String)
    (h : resolveStrField env conf name dflt = some r) :
    (∀ s, env up = some s → r = s) ∧
    (env up = none → ∀ v, conf name = some v → coerceStr v = some r) ∧
    (env up = none → conf name = none → r = dflt) := by
  subst hup
  unfold resolveStrField resolveRaw at h
  refine ⟨?_, ?_, ?_⟩
  · intro s hs
    rw [hs] at h
    simp [coerceStr] at h
    exact h.symm
  · intro hn v hv
    rw [hn, hv] at h
    exact h
  · intro hn hc
    rw [hn, hc] at h
    simpa using h.symm

theorem resolveNatField_spec (env : String → Option String) (conf : String → Option PyValue)
    (name : String) (dflt : ℕ) (up : String) (hup : pyUpper name = up) (r : ℕ)
    (h : resolveNatField env conf name dflt = some r) :
    (∀ s, env up = some s → digitsToNat? s.data = some r) ∧
    (env up = none → ∀ v, conf name = some v → coerceNat v = some r) ∧
    (env up = none → conf name = none → r = dflt) := by
  subst hup
  unfold resolveNatField resolveRaw at h
  refine ⟨?_, ?_, ?_⟩
  · intro s hs
    rw [hs] at h
    exact h
  · intro hn v hv
    rw [hn, hv] at h
    exact h
  · intro hn hc
    rw [hn, hc] at h
    simpa using h.symm

/-- C10: `Configuration.from_runnable_config` resolves every field with
environment precedence: a set environment variable named by the uppercased
field name determines the field (overriding any configurable value, with
pydantic's str→int parsing for the int fields); with no environment variable
the configurable mapping's value is validated into the field; with neither,
the declared default applies (`provider` "gemini", `reasoning_model`
"gemini-2.5-flash-preview-04-17", `number_of_initial_queries` 3,
`max_research_loops` 2). -/
theorem from_runnable_config_resolution (env : String → Option String)
    (config : Option (String → Option PyValue)) (c : Configuration)
    (h : Configuration.from_runnable_config env config = some c) :
    (∀ s, env "PROVIDER" = some s → c.provider = s) ∧
    (env "PROVIDER" = none →
      ∀ v, (configurableOf config) "provider" = some v → coerceStr v = some c.provider) ∧
    (env "PROVIDER" = none → (configurableOf config) "provider" = none →
      c.provider = "gemini") ∧
    (∀ s, env "REASONING_MODEL" = some s → c.reasoning_model = s) ∧
    (env "REASONING_MODEL" = none →
      ∀ v, (configurableOf config) "reasoning_model" = some v →
        coerceStr v = some c.reasoning_model) ∧
    (env "REASONING_MODEL" = none → (configurableOf config) "reasoning_model" = none →
      c.reasoning_model = "gemini-2.5-flash-preview-04-17") ∧
    (∀ s, env "NUMBER_OF_INITIAL_QUERIES" = some s →
      digitsToNat? s.data = some c.number_of_initial_queries) ∧
    (env "NUMBER_OF_INITIAL_QUERIES" = none →
      ∀ v, (configurableOf config) "number_of_initial_queries" = some v →
        coerceNat v = some c.number_of_initial_queries) ∧
    (env "NUMBER_OF_INITIAL_QUERIES" = none →
      (configurableOf config) "number_of_initial_queries" = none →
        c.number_of_initial_queries = 3) ∧
    (∀ s, env "MAX_RESEARCH_LOOPS" = some s →
      digitsToNat? s.data = some c.max_research_loops) ∧
    (env "MAX_RESEARCH_LOOPS" = none →
      ∀ v, (configurableOf config) "max_research_loops" = some v →
        coerceNat v = some c.max_research_loops) ∧
    (env "MAX_RESEARCH_LOOPS" = none → (configurableOf config) "max_research_loops" = none →
      c.max_research_loops = 2) := by
  unfold Configuration.from_runnable_config at h
  rcases h1 : resolveStrField env (configurableOf config) "provider" "gemini"
    with _ | p <;> rw [h1] at h
  case none => cases h
  rcases h2 : resolveStrField env (configurableOf config) "reasoning_model"
    "gemini-2.5-flash-preview-04-17" with _ | rm <;> rw [h2] at h
  case none => cases h
  rcases h3 : resolveNatField env (configurableOf config) "number_of_initial_queries" 3
    with _ | niq <;> rw [h3] at h
  case none => cases h
  rcases h4 : resolveNatField env (configurableOf config) "max_research_loops" 2
    with _ | mrl <;> rw [h4] at h
  case none => cases h
  cases h
  obtain ⟨p1, p2, p3⟩ :=
    resolveStrField_spec env (configurableOf config) "provider" "gemini" "PROVIDER"
      (by decide) p h1
  obtain ⟨r1, r2, r3⟩ :=
    resolveStrField_spec env (configurableOf config) "reasoning_model"
      "gemini-2.5-flash-preview-04-17" "REASONING_MODEL" (by decide) rm h2
  obtain ⟨n1, n2, n3⟩ :=
    resolveNatField_spec env (configurableOf config) "number_of_initial_queries" 3
      "NUMBER_OF_INITIAL_QUERIES" (by decide) niq h3
  obtain ⟨m1, m2, m3⟩ :=
    resolveNatField_spec env (configurableOf config) "max_research_loops" 2
      "MAX_RESEARCH_LOOPS" (by decide) mrl h4
  exact ⟨p1, p2, p3, r1, r2, r3, n1, n2, n3, m1, m2, m3⟩

/-- Witness for `from_runnable_config_resolution`: with
`MAX_RESEARCH_LOOPS=5` in the environment and `number_of_initial_queries = 7`
in the configurable mapping, the environment wins for the former, the mapping
for the latter, and the untouched fields fall to their defaults. -/
theorem from_runnable_config_resolution_witness :
    digitsToNat? "5".data = some 5 := by
  have h : Configuration.from_runnable_config
      (fun n => if n = "MAX_RESEARCH_LOOPS" then some "5" else none)
      (some fun n => if n = "number_of_initial_queries" then some (.int 7) else none) =
      some ⟨"gemini", "gemini-2.5-flash-preview-04-17", 7, 5⟩ := by decide
  exact (from_runnable_config_resolution _ _ _ h).2.2.2.2.2.2.2.2.2.1 "5" (by decide)

theorem finalize_foldl (sources : List Source) :
    ∀ st : FinState,
      sources.foldl finalizeStep st =
        { unique_sources := st.unique_sources ++ dedupFirstAux st.seen_urls sources,
          seen_urls :=
            ((dedupFirstAux st.seen_urls sources).map Source.urlOf).reverse ++ st.seen_urls,
          content :=
            (dedupFirstAux st.seen_urls sources).foldl (fun c s => rewriteContent s c)
              st.content } := by
  induction sources with
  | nil => intro st; simp [dedupFirstAux]
  | cons s rest ih =>
    intro st
    rw [List.foldl_cons]
    by_cases h : s.urlOf ∈ st.seen_urls
    · rw [show finalizeStep st s = st from by simp [finalizeStep, h]]
      rw [ih st]
      simp [dedupFirstAux, h]
    · have hstep : finalizeStep st s =
          { unique_sources := st.unique_sources ++ [s], seen_urls := s.urlOf :: st.seen_urls,
            content := rewriteContent s st.content } := by simp [finalizeStep, h]
      rw [hstep, ih]
      simp [dedupFirstAux, h, List.append_assoc]

theorem dedupFirstAux_nodup (sources : List Source) :
    ∀ seen, ((dedupFirstAux seen sources).map Source.urlOf).Nodup ∧
      ∀ u ∈ (dedupFirstAux seen sources).map Source.urlOf, u ∉ seen := by
  induction sources with
  | nil => intro seen; simp [dedupFirstAux]
  | cons s rest ih =>
    intro seen
    by_cases h : s.urlOf ∈ seen
    · simpa [dedupFirstAux, h] using ih seen
    · obtain ⟨hn, hmem⟩ := ih (s.urlOf :: seen)
      refine ⟨?_, ?_⟩
      · simp only [dedupFirstAux, h, if_false, List.map_cons, List.nodup_cons]
        refine ⟨fun contra => ?_, hn⟩
        exact absurd (List.mem_cons_self _ _) (hmem _ contra)
      · intro u hu
        simp only [dedupFirstAux, h, if_false, List.map_cons, List.mem_cons] at hu
        rcases hu with rfl | hu
        · exact h
        · exact fun hc => hmem u hu (List.mem_cons_of_mem _ hc)

theorem dedupFirstAux_mem (sources : List Source) :
    ∀ seen, ∀ s ∈ sources,
      s.urlOf ∈ seen ∨ s.urlOf ∈ (dedupFirstAux seen sources).map Source.urlOf := by
  induction sources with
  | nil => intro seen s hs; cases hs
  | cons a rest ih =>
    intro seen s hs
    rcases List.mem_cons.mp hs with rfl | hs
    · by_cases h : s.urlOf ∈ seen
      · left; exact h
      · right; simp [dedupFirstAux, h]
    · by_cases h : a.urlOf ∈ seen
      · rcases ih seen s hs with hl | hr
        · left; exact hl
        · right; simpa [dedupFirstAux, h] using hr
      · rcases ih (a.urlOf :: seen) s hs with hl | hr
        · rcases List.mem_cons.mp hl with heq | hl'
          · right; simp [dedupFirstAux, h, heq]
          · left; exact hl'
        · right; simp only [dedupFirstAux, h, if_false, List.map_cons, List.mem_cons]
          right; exact hr

/-- C2 (amended): after `finalize_answer` deduplicates the accumulated
sources, `sources_gathered` holds exactly the first-seen record per distinct
URL (equal to the spec-side first-seen deduplication, with pairwise-distinct
URLs covering every accumulated record's URL), and the final text is the
result of applying the short-form-token rewrite of exactly those first-seen
records — so a first-seen grounding record whose token occurs in the text has
it replaced by the full URL, while a later record whose URL was already seen
is skipped without rewriting its token, and custom-format records never
rewrite. -/
theorem finalize_dedup_first_seen (sources : List Source) (content : String) :
    (finalize_sources sources content).unique_sources = dedupFirst sources ∧
    ((finalize_sources sources content).unique_sources.map Source.urlOf).Nodup ∧
    (∀ s ∈ sources,
      s.urlOf ∈ (finalize_sources sources content).unique_sources.map Source.urlOf) ∧
    (finalize_sources sources content).content =
      (dedupFirst sources).foldl (fun c s => rewriteContent s c) content := by
  have hf := finalize_foldl sources { unique_sources := [], seen_urls := [], content := content }
  rw [finalize_sources, hf]
  refine ⟨by simp [dedupFirst], ?_, ?_, by simp [dedupFirst]⟩
  · simpa using (dedupFirstAux_nodup sources []).1
  · intro s hs
    rcases dedupFirstAux_mem sources [] s hs with hl | hr
    · cases hl
    · simpa using hr

/-- Witness for `finalize_dedup_first_seen`: the URL of an accumulated record
appears among the deduplicated output's URLs. -/
theorem finalize_dedup_first_seen_witness :
    (Source.grounded "a" "[1]" "u").urlOf ∈
      (finalize_sources [Source.grounded "a" "[1]" "u"] "t").unique_sources.map Source.urlOf :=
  (finalize_dedup_first_seen [Source.grounded "a" "[1]" "u"] "t").2.2.1 _ (by simp)

/-- C2 (counterexample): two grounding records with distinct short-form tokens
`[1]` and `[2]` resolving to the same URL `u`, in text containing both tokens:
the deduplicated output keeps one record, but only the first-seen token is
rewritten — the later alias `[2]` survives in the final text, contradicting
the claim that every matching short-form token is replaced. -/
theorem finalize_second_alias_not_rewritten :
    (finalize_sources [Source.grounded "a" "[1]" "u", Source.grounded "b" "[2]" "u"]
        "x [1] y [2]").content = "x u y [2]" ∧
    containsSub "[2]".data
      (finalize_sources [Source.grounded "a" "[1]" "u", Source.grounded "b" "[2]" "u"]
          "x [1] y [2]").content.data = true ∧
    (finalize_sources [Source.grounded "a" "[1]" "u", Source.grounded "b" "[2]" "u"]
        "x [1] y [2]").content ≠ "x u y u" := by
  decide

end Agent
